import Mathlib

/-!
Verification development for the Sentinel Command Center repository.

The embedding below models the roster ("soldiers") store, the system-log
store, and the client operations of `src/src/App.tsx`, the SQL DDL of
`src/migration_create_soldiers_table.sql` and `src/unnamed/part_000`
(the soldiers-table migrations), and the log-table DDL of
`src/migration_create_system_logs_table.sql`.

JavaScript strings are modelled as lists of characters (`JStr`); the
hosted database is modelled as an explicit state (`SoldiersStore`) whose
`clock` stands for the strictly advancing `NOW()` timestamp source, and
whose fallible calls return `Except`.
-/

namespace Sentinel

/-- Model of a JavaScript string: its sequence of characters. -/
abbrev JStr := List Char

/-- Characters of the literal `'data:image'` used by the client to
recognize an embedded image (`App.tsx` lines 584, 662, 952). -/
def dataImageHeader : JStr := "data:image".toList

/-- Model of `name.substring(0, 2).toUpperCase()`, the photo fallback
computed in `addSoldier` (App.tsx line 583) and `updateSoldier`
(line 661): the first two characters of the name (fewer when the name is
shorter), each mapped to upper case. -/
def initialsFallback (name : JStr) : JStr :=
  (name.take 2).map Char.toUpper

/-- Photo preparation shared by `addSoldier` (App.tsx lines 582-591) and
`updateSoldier` (lines 660-669): start from the initials fallback; when an
image is present and begins with `data:image`, reject (model: `none`) if
its encoded length exceeds `1024 * 1024`, otherwise use the image. The
`none` result models the `alert` + early `return` before any store call. -/
def preparePhotoData (name : JStr) (soldierImage : Option JStr) : Option JStr :=
  let photoData := initialsFallback name
  match soldierImage with
  | some img =>
      if dataImageHeader.isPrefixOf img then
        if 1024 * 1024 < img.length then none
        else some img
      else some photoData
  | none => some photoData

/-- Model of JavaScript `parseInt` (radix 10) on a trimmed-ish string:
skip leading spaces, accept an optional sign, then read the leading run
of decimal digits; `none` models `NaN` (no digits). -/
def jsParseInt (s : JStr) : Option Int :=
  let t := s.dropWhile fun c => c == ' '
  match t with
  | '-' :: rest =>
      let ds := rest.takeWhile Char.isDigit
      if ds = [] then none
      else some (-(ds.foldl (fun a c => a * 10 + (c.toNat - 48)) 0 : Int))
  | '+' :: rest =>
      let ds := rest.takeWhile Char.isDigit
      if ds = [] then none
      else some ((ds.foldl (fun a c => a * 10 + (c.toNat - 48)) 0 : Int))
  | _ =>
      let ds := t.takeWhile Char.isDigit
      if ds = [] then none
      else some ((ds.foldl (fun a c => a * 10 + (c.toNat - 48)) 0 : Int))

/-- Model of JavaScript `String.prototype.trim` (space characters). -/
def jsTrim (s : JStr) : JStr :=
  ((s.dropWhile fun c => c == ' ').reverse.dropWhile fun c => c == ' ').reverse

/-- Soldier row of the `soldiers` table (columns of
`migration_create_soldiers_table.sql` lines 5-15 / `unnamed/part_000`
lines 2-12); timestamps are abstract clock readings. -/
structure Soldier where
  id : Nat
  name : JStr
  position : JStr
  sex : JStr
  age : Int
  status : JStr
  photo_data : Option JStr
  created_at : Nat
  updated_at : Nat
deriving DecidableEq, Repr

/-- CHECK constraint `sex IN ('Male', 'Female')` (both soldiers DDLs). -/
def sexCheck (s : JStr) : Bool :=
  s == "Male".toList || s == "Female".toList

/-- CHECK constraint `age > 0 AND age < 120` of the final soldiers table
(`migration_create_soldiers_table.sql` line 10, which DROPs and recreates
the table). -/
def ageCheck (a : Int) : Bool :=
  decide (0 < a) && decide (a < 120)

/-- CHECK constraint `age > 0` of the earlier soldiers DDL
(`unnamed/part_000` line 7, `CREATE TABLE IF NOT EXISTS`), which has no
upper bound. -/
def ageCheckLegacy (a : Int) : Bool :=
  decide (0 < a)

/-- CHECK constraint `status IN ('Active', 'Inactive')` (both DDLs). -/
def statusCheck (s : JStr) : Bool :=
  s == "Active".toList || s == "Inactive".toList

/-- Conjunction of the row CHECK constraints of the final soldiers table. -/
def rowChecks (sex : JStr) (age : Int) (status : JStr) : Bool :=
  sexCheck sex && ageCheck age && statusCheck status

/-- State of the hosted soldiers table: its rows, the BIGSERIAL id
counter, and an abstract clock standing for `NOW()`, which every
mutation reads and then advances. -/
structure SoldiersStore where
  rows : List Soldier
  nextId : Nat
  clock : Nat
deriving DecidableEq, Repr

/-- Well-formedness of a store state: every stored timestamp was read
from the clock strictly before its current value (time advances). -/
def SoldiersStore.wf (s : SoldiersStore) : Bool :=
  s.rows.all fun r =>
    decide (r.created_at < s.clock) && decide (r.updated_at < s.clock)

/-- Column values the client sends on insert/update (`soldierData` in
App.tsx lines 593-600 and 671-678): everything except `id`,
`created_at`, `updated_at`. -/
structure SoldierPayload where
  name : JStr
  position : JStr
  sex : JStr
  age : Int
  status : JStr
  photo_data : Option JStr
deriving DecidableEq, Repr

/-- Column-width acceptance of the final soldiers table
(`migration_create_soldiers_table.sql` lines 7-12): `name` and
`position` are VARCHAR(255), `sex` VARCHAR(10), `status` VARCHAR(20) and
`photo_data` VARCHAR(10); Postgres rejects a longer value with a
"value too long" error. -/
def widthChecks (p : SoldierPayload) : Bool :=
  decide (p.name.length ≤ 255) && decide (p.position.length ≤ 255) &&
  decide (p.sex.length ≤ 10) && decide (p.status.length ≤ 20) &&
  (match p.photo_data with
   | none => true
   | some s => decide (s.length ≤ 10))

/-- Model of `supabase.from('soldiers').insert([soldierData]).select()`:
the store checks the row CHECK constraints and the VARCHAR column
widths, stamps `id`, `created_at`, `updated_at` (column DEFAULTs
`NOW()`), and returns the stored row. -/
def supabaseInsert (s : SoldiersStore) (p : SoldierPayload) :
    Except JStr (SoldiersStore × Soldier) :=
  if rowChecks p.sex p.age p.status && widthChecks p then
    let r : Soldier :=
      { id := s.nextId, name := p.name, position := p.position, sex := p.sex,
        age := p.age, status := p.status, photo_data := p.photo_data,
        created_at := s.clock, updated_at := s.clock }
    Except.ok ({ rows := s.rows ++ [r], nextId := s.nextId + 1, clock := s.clock + 1 }, r)
  else
    Except.error ("check constraint violation".toList)

/-- Effect of one UPDATE on one row: the client payload overwrites the
payload columns, the `update_updated_at_column` trigger
(`unnamed/part_000` lines 25-38, also in the final migration) sets
`updated_at = NOW()`; `id` and `created_at` are not touched. -/
def applyPayload (p : SoldierPayload) (now : Nat) (r : Soldier) : Soldier :=
  { id := r.id, name := p.name, position := p.position, sex := p.sex,
    age := p.age, status := p.status, photo_data := p.photo_data,
    created_at := r.created_at, updated_at := now }

/-- Model of `supabase.from('soldiers').update(soldierData).eq('id', id)
.select()`: every row whose id matches is overwritten through
`applyPayload` (including the `updated_at` trigger), and the updated rows
are returned; CHECK-constraint or column-width violations fail the
call. -/
def supabaseUpdate (s : SoldiersStore) (i : Nat) (p : SoldierPayload) :
    Except JStr (SoldiersStore × List Soldier) :=
  if rowChecks p.sex p.age p.status && widthChecks p then
    let newRows := s.rows.map fun r => if r.id = i then applyPayload p s.clock r else r
    Except.ok ({ rows := newRows, nextId := s.nextId, clock := s.clock + 1 },
      newRows.filter fun r => r.id == i)
  else
    Except.error ("check constraint violation".toList)

/-- Model of `supabase.from('soldiers').delete().eq('id', id)`
(App.tsx lines 726-729): removes every row with the given id. -/
def supabaseDelete (s : SoldiersStore) (i : Nat) : SoldiersStore :=
  { rows := s.rows.filter fun r => r.id != i, nextId := s.nextId, clock := s.clock + 1 }

/-- The ordering requested by `.order('created_at', { ascending: false })`
(App.tsx line 1036): later creation time first. -/
def createdDesc (a b : Soldier) : Prop :=
  b.created_at ≤ a.created_at

instance : DecidableRel createdDesc :=
  fun a b => inferInstanceAs (Decidable (b.created_at ≤ a.created_at))

instance : IsTotal Soldier createdDesc :=
  ⟨fun a b => (Nat.le_total a.created_at b.created_at).symm⟩

instance : IsTrans Soldier createdDesc :=
  ⟨fun _ _ _ hab hbc => Nat.le_trans hbc hab⟩

/-- Model of `loadSoldiers` / the store `list()` call (App.tsx lines
1031-1052): `select('*').order('created_at', { ascending: false })` with
no limit; a failed connection surfaces a store error to the caller. -/
def loadSoldiers (connected : Bool) (s : SoldiersStore) : Except JStr (List Soldier) :=
  if connected then Except.ok (List.insertionSort createdDesc s.rows)
  else Except.error ("connection failed".toList)

/-- System-log entry of the client's in-memory mirror (`SystemLog`
interface, App.tsx lines 31-38; the `context` payload is omitted as no
claim inspects it). -/
structure SystemLog where
  id : Nat
  created_at : JStr
  level : JStr
  tag : Option JStr
  message : JStr
deriving DecidableEq, Repr

/-- The log-append pattern used at every log write site in App.tsx
(lines 98, 121, 430, 441, 475, 627, 638, 708, 719, 745, 756, 998, 1011,
1024, 1050): `setSystemLogs(prev => [newLog, ...prev.slice(0, 99)])`,
i.e. prepend the new entry to the first 99 previous entries. -/
def appendSystemLog (newLog : SystemLog) (prev : List SystemLog) : List SystemLog :=
  newLog :: prev.take 99

/-- The notification entry built inside `clearLogs` (App.tsx lines
567-574). -/
def clearNotification (now : Nat) (ts : JStr) : SystemLog :=
  { id := now, created_at := ts, level := "INFO".toList,
    tag := some ("SYSTEM".toList), message := "System logs cleared".toList }

/-- Model of `clearLogs` (App.tsx lines 565-576): `setSystemLogs([])`
immediately followed by `setSystemLogs([clearLog])`, so the final log
list is the single clear-notification entry regardless of `prev`. -/
def clearLogs (now : Nat) (ts : JStr) (prev : List SystemLog) : List SystemLog :=
  let cleared : List SystemLog := []
  let _ := prev
  clearNotification now ts :: cleared

/-- The add/edit form state (`newSoldier`, App.tsx lines 68-74): all
fields are strings as captured from the inputs. -/
structure NewSoldierForm where
  name : JStr
  position : JStr
  sex : JStr
  age : JStr
  status : JStr
deriving DecidableEq, Repr

/-- Outcome of one `addSoldier` run. `noop` models the falsy-guard early
exit, `rejectedSize` the oversized-image alert + return (before any store
call), `inserted` a successful insert, `dbError` any thrown/failed store
interaction caught by the surrounding try/catch. -/
inductive AddResult where
  | noop
  | rejectedSize
  | inserted (store : SoldiersStore) (row : Soldier)
  | dbError
deriving DecidableEq, Repr

/-- Model of `addSoldier` (App.tsx lines 579-641): guard on non-empty
name/position/age, prepare the photo (oversize check before any store
call), `parseInt` the age (a NaN age fails at the store), then insert. -/
def addSoldier (form : NewSoldierForm) (soldierImage : Option JStr)
    (store : SoldiersStore) : AddResult :=
  if form.name != ([] : JStr) && form.position != ([] : JStr) && form.age != ([] : JStr) then
    match preparePhotoData form.name soldierImage with
    | none => AddResult.rejectedSize
    | some photoData =>
      match jsParseInt form.age with
      | none => AddResult.dbError
      | some a =>
        match supabaseInsert store
            { name := form.name, position := form.position, sex := form.sex,
              age := a, status := form.status, photo_data := some photoData } with
        | Except.ok (s, r) => AddResult.inserted s r
        | Except.error _ => AddResult.dbError
  else AddResult.noop

/-- Outcome of one `updateSoldier` run, mirroring `AddResult`. -/
inductive UpdateResult where
  | noop
  | rejectedSize
  | updated (store : SoldiersStore) (rows : List Soldier)
  | dbError
deriving DecidableEq, Repr

/-- Model of `updateSoldier` (App.tsx lines 657-722): same guard and
photo logic as `addSoldier`, then
`update(soldierData).eq('id', editingSoldier.id)`. -/
def updateSoldier (editingSoldier : Soldier) (form : NewSoldierForm)
    (soldierImage : Option JStr) (store : SoldiersStore) : UpdateResult :=
  if form.name != ([] : JStr) && form.position != ([] : JStr) && form.age != ([] : JStr) then
    match preparePhotoData form.name soldierImage with
    | none => UpdateResult.rejectedSize
    | some photoData =>
      match jsParseInt form.age with
      | none => UpdateResult.dbError
      | some a =>
        match supabaseUpdate store editingSoldier.id
            { name := form.name, position := form.position, sex := form.sex,
              age := a, status := form.status, photo_data := some photoData } with
        | Except.ok (s, rs) => UpdateResult.updated s rs
        | Except.error _ => UpdateResult.dbError
  else UpdateResult.noop

/-- Roster state after an `addSoldier` run: only a successful insert
changes the store. -/
def rosterAfterAdd (store : SoldiersStore) : AddResult → SoldiersStore
  | AddResult.inserted s _ => s
  | _ => store

/-- Roster state after an `updateSoldier` run: only a successful update
changes the store. -/
def rosterAfterUpdate (store : SoldiersStore) : UpdateResult → SoldiersStore
  | UpdateResult.updated s _ => s
  | _ => store

/-- The photo field of the row stored by an `addSoldier` run, when one
was stored. -/
def addResultPhoto : AddResult → Option (Option JStr)
  | AddResult.inserted _ r => some r.photo_data
  | _ => none

/-- Outcome of the AI endpoint call inside `compareFacesWithGemini`
(App.tsx lines 898-913): the fetch/json stage rejects (`netFailure`), or
a parsed response whose `candidates[0].content.parts[0].text` field is
absent (`response none`) or is some text. -/
inductive GeminiOutcome where
  | netFailure
  | response (text : Option JStr)
deriving DecidableEq, Repr

/-- Model of `compareFacesWithGemini` (App.tsx lines 877-924). Its whole
body sits in try/catch with `return null` in the catch, so the function
never throws: every outcome is `Except.ok`. On a response,
`parseInt(text?.trim() || '-1')` picks the candidate index; any index
outside `[0, length)` (including NaN) yields `null`. -/
def compareFacesWithGemini (outcome : GeminiOutcome)
    (databaseImages : List Soldier) : Except Unit (Option Soldier) :=
  match outcome with
  | GeminiOutcome.netFailure => Except.ok none
  | GeminiOutcome.response text =>
    let textOrDefault : JStr :=
      match text with
      | none => "-1".toList
      | some t => if jsTrim t = [] then "-1".toList else jsTrim t
    match jsParseInt textOrDefault with
    | none => Except.ok none
    | some i =>
      if h : 0 ≤ i ∧ i < (databaseImages.length : Int) then
        Except.ok (some (databaseImages.get ⟨i.toNat, by omega⟩))
      else Except.ok none

/-- Test used by `handleCompareFaces` (App.tsx lines 951-953) to select
candidates: `photo_data && photo_data.startsWith('data:image')`. -/
def hasEmbeddedImage (s : Soldier) : Bool :=
  match s.photo_data with
  | some p => dataImageHeader.isPrefixOf p
  | none => false

/-- Model of `handleCompareFaces` (App.tsx lines 927-1028): filter the
candidates, return early when none; otherwise the Gemini call's value is
the result, and the `catch` branch (random pick at index
`Math.floor(Math.random() * length)`, modelled by `randomIndex`) runs
only if that call throws. -/
def handleCompareFaces (outcome : GeminiOutcome) (randomIndex : Nat)
    (soldiers : List Soldier) : Option Soldier :=
  let soldiersWithImages := soldiers.filter hasEmbeddedImage
  if soldiersWithImages.isEmpty then none
  else
    match compareFacesWithGemini outcome soldiersWithImages with
    | Except.ok bestMatch => bestMatch
    | Except.error _ => soldiersWithImages.get? (randomIndex % soldiersWithImages.length)

/-- Does an insert attempt get accepted by the store? -/
def insertAccepted (s : SoldiersStore) (p : SoldierPayload) : Bool :=
  match supabaseInsert s p with
  | Except.ok _ => true
  | Except.error _ => false

/-- Concrete empty store used by the witnesses. -/
def sampleStore : SoldiersStore :=
  { rows := [], nextId := 1, clock := 1 }

/-- Concrete filled add form with the spec's example name. -/
def johnForm : NewSoldierForm :=
  { name := "John Doe".toList, position := "Sergeant".toList,
    sex := "Male".toList, age := "28".toList, status := "Active".toList }

/-- The row `addSoldier johnForm none sampleStore` stores. -/
def johnRow : Soldier :=
  { id := 1, name := "John Doe".toList, position := "Sergeant".toList,
    sex := "Male".toList, age := 28, status := "Active".toList,
    photo_data := some ("JO".toList), created_at := 1, updated_at := 1 }

/-- The store after `addSoldier johnForm none sampleStore`. -/
def storeAfterJohn : SoldiersStore :=
  { rows := [johnRow], nextId := 2, clock := 2 }

/-- Concrete add form whose name has a single character. -/
def aForm : NewSoldierForm :=
  { name := "a".toList, position := "P".toList, sex := "Male".toList,
    age := "30".toList, status := "Active".toList }

/-- Concrete soldier row carrying an embedded image. -/
def imgSoldier : Soldier :=
  { id := 7, name := "X".toList, position := "P".toList, sex := "Male".toList,
    age := 30, status := "Active".toList,
    photo_data := some ("data:image/png".toList), created_at := 3, updated_at := 3 }

/-- Concrete encoded image string longer than one MiB. -/
def bigImg : JStr :=
  "data:image".toList ++ List.replicate (1024 * 1024) 'A'

/-- Concrete stored row used by the update/delete/list witnesses. -/
def rowOne : Soldier :=
  { id := 1, name := "Al".toList, position := "Pvt".toList, sex := "Male".toList,
    age := 20, status := "Active".toList, photo_data := some ("AL".toList),
    created_at := 1, updated_at := 1 }

/-- Second concrete stored row. -/
def rowTwo : Soldier :=
  { id := 2, name := "Bo".toList, position := "Cpl".toList, sex := "Male".toList,
    age := 25, status := "Active".toList, photo_data := some ("BO".toList),
    created_at := 2, updated_at := 2 }

/-- Concrete store holding `rowOne` and `rowTwo`. -/
def twoRowStore : SoldiersStore :=
  { rows := [rowOne, rowTwo], nextId := 3, clock := 5 }

/-- Concrete valid update payload. -/
def janePayload : SoldierPayload :=
  { name := "Jane".toList, position := "Lt".toList, sex := "Female".toList,
    age := 30, status := "Active".toList, photo_data := some ("JA".toList) }

/-- Concrete payload with a valid age (30) and valid enums whose
`photo_data` is a 38-character embedded image string, longer than the
`photo_data VARCHAR(10)` column of the final DDL. -/
def bigPhotoPayload : SoldierPayload :=
  { name := "Jane".toList, position := "Lt".toList, sex := "Female".toList,
    age := 30, status := "Active".toList,
    photo_data := some ("data:image/png;base64,iVBORw0KGgoAAAAN".toList) }

/-- Concrete row resulting from updating `rowOne` with `janePayload` at
clock 5. -/
def updatedRowOne : Soldier := applyPayload janePayload 5 rowOne

/-- Concrete store after `supabaseUpdate twoRowStore 1 janePayload`. -/
def storeAfterJane : SoldiersStore :=
  { rows := [updatedRowOne, rowTwo], nextId := 3, clock := 6 }

/-- The photo_data shape asserted by the spec invariant: non-null, and
either a two-character string with no lowercase letter (the claimed
"two-character uppercase initials fallback") or an embedded image
starting with `data:image`. -/
def photoClaimCheck (p : Option JStr) : Bool :=
  match p with
  | none => false
  | some s => (s.length == 2 && s.all fun c => !c.isLower) || dataImageHeader.isPrefixOf s

/-! Helper lemmas shared by the claim theorems. -/

/-- The initials fallback of a non-empty name is non-empty. -/
theorem initialsFallback_ne_nil (name : JStr) (h : name ≠ []) :
    initialsFallback name ≠ [] := by
  cases name with
  | nil => exact absurd rfl h
  | cons a l => simp [initialsFallback, List.take]

/-- Length of the initials fallback: two characters, or fewer when the
name is shorter. -/
theorem initialsFallback_length (name : JStr) :
    (initialsFallback name).length = min 2 name.length := by
  simp [initialsFallback]

/-- A string beginning with the `data:image` marker is non-empty. -/
theorem header_prefix_ne_nil (p : JStr) (h : dataImageHeader.isPrefixOf p = true) :
    p ≠ [] := by
  intro hnil
  rw [hnil] at h
  exact absurd h (by decide)

/-- Every photo value `preparePhotoData` accepts is either the initials
fallback or an embedded image string. -/
theorem preparePhotoData_cases (name : JStr) (img : Option JStr) (p : JStr)
    (h : preparePhotoData name img = some p) :
    p = initialsFallback name ∨ dataImageHeader.isPrefixOf p = true := by
  unfold preparePhotoData at h
  cases img with
  | none =>
    simp at h
    exact Or.inl h.symm
  | some i =>
    dsimp only at h
    by_cases hpre : dataImageHeader.isPrefixOf i = true
    · rw [if_pos hpre] at h
      by_cases hsz : 1024 * 1024 < i.length
      · rw [if_pos hsz] at h; exact absurd h (by simp)
      · rw [if_neg hsz] at h
        simp at h
        exact Or.inr (h ▸ hpre)
    · rw [if_neg hpre] at h
      simp at h
      exact Or.inl h.symm

/-- A successful `addSoldier` run passed the non-empty guard and stored
exactly the photo value `preparePhotoData` produced. -/
theorem addSoldier_inserted_spec (form : NewSoldierForm) (img : Option JStr)
    (store s : SoldiersStore) (r : Soldier)
    (h : addSoldier form img store = AddResult.inserted s r) :
    form.name ≠ [] ∧ ∃ p, preparePhotoData form.name img = some p ∧ r.photo_data = some p := by
  unfold addSoldier at h
  split at h
  case isFalse => exact absurd h (by simp)
  case isTrue hguard =>
    have hname : form.name ≠ [] := by
      intro hn
      rw [hn] at hguard
      simp at hguard
    refine ⟨hname, ?_⟩
    split at h
    case h_1 => exact absurd h (by simp)
    case h_2 p hp =>
      refine ⟨p, hp, ?_⟩
      split at h
      case h_1 => exact absurd h (by simp)
      case h_2 a ha =>
        split at h
        case h_2 heq => exact absurd h (by simp)
        case h_1 s1 r1 heq =>
          injection h with hs hr
          subst hs
          subst hr
          unfold supabaseInsert at heq
          split at heq
          · dsimp only at heq
            injection heq with heq2
            injection heq2 with hfst hsnd
            rw [← hsnd]
          · exact absurd heq (by simp)

/-- A successful `updateSoldier` run passed the non-empty guard and every
updated row carries exactly the photo value `preparePhotoData` produced. -/
theorem updateSoldier_updated_spec (editing : Soldier) (form : NewSoldierForm)
    (img : Option JStr) (store s : SoldiersStore) (rs : List Soldier)
    (h : updateSoldier editing form img store = UpdateResult.updated s rs) :
    form.name ≠ [] ∧ ∃ p, preparePhotoData form.name img = some p ∧
      ∀ r ∈ rs, r.photo_data = some p := by
  unfold updateSoldier at h
  split at h
  case isFalse => exact absurd h (by simp)
  case isTrue hguard =>
    have hname : form.name ≠ [] := by
      intro hn
      rw [hn] at hguard
      simp at hguard
    refine ⟨hname, ?_⟩
    split at h
    case h_1 => exact absurd h (by simp)
    case h_2 p hp =>
      refine ⟨p, hp, ?_⟩
      split at h
      case h_1 => exact absurd h (by simp)
      case h_2 a ha =>
        split at h
        case h_2 heq => exact absurd h (by simp)
        case h_1 s1 rs1 heq =>
          injection h with hs hr
          subst hs
          subst hr
          unfold supabaseUpdate at heq
          split at heq
          case isFalse => exact absurd heq (by simp)
          case isTrue =>
            dsimp only at heq
            injection heq with heq2
            injection heq2 with hfst hsnd
            intro r hr
            rw [← hsnd] at hr
            have hmem := List.mem_filter.mp hr
            have hid : r.id = editing.id := by
              have := hmem.2
              simpa using this
            have hmap := hmem.1
            rcases List.mem_map.mp hmap with ⟨r0, hr0, hr0eq⟩
            by_cases hcase : r0.id = editing.id
            · rw [if_pos hcase] at hr0eq
              rw [← hr0eq]
              rfl
            · rw [if_neg hcase] at hr0eq
              rw [← hr0eq] at hid
              exact absurd hid hcase

/-! Claim theorems. -/

/-- C1 (counterexample): the claim as stated is false on the code.
Creating a soldier named "John Doe" with no uploaded image stores
`photo_data` "JO" (`name.substring(0, 2).toUpperCase()`), not the
initials "JD" asserted by the spec's testable property 6. -/
theorem c1_photo_fallback_cex :
    addResultPhoto (addSoldier johnForm none sampleStore) = some (some ("JO".toList)) ∧
    addResultPhoto (addSoldier johnForm none sampleStore) ≠ some (some ("JD".toList)) := by
  decide

/-- C1 (amended): every soldier created via `addSoldier` with name
"John Doe" and no uploaded image stores `photo_data` equal to "JO", the
first two characters of the name upper-cased. -/
theorem c1_photo_fallback_amended (pos sex ageS status : JStr)
    (store s : SoldiersStore) (r : Soldier)
    (h : addSoldier { name := "John Doe".toList, position := pos, sex := sex,
                      age := ageS, status := status } none store = AddResult.inserted s r) :
    r.photo_data = some ("JO".toList) := by
  obtain ⟨-, p, hp, hphoto⟩ := addSoldier_inserted_spec _ _ _ _ _ h
  dsimp only at hp
  have hjo : preparePhotoData ("John Doe".toList) none = some ("JO".toList) := by decide
  rw [hjo] at hp
  injection hp with hpe
  rw [hphoto, ← hpe]

/-- C1 (witness): the amended theorem applied to a concrete create of
"John Doe" on the empty store. -/
theorem c1_photo_fallback_witness : johnRow.photo_data = some ("JO".toList) :=
  c1_photo_fallback_amended ("Sergeant".toList) ("Male".toList) ("28".toList)
    ("Active".toList) sampleStore storeAfterJohn johnRow (by decide)

/-- C2 (counterexample): the claim is false on the code. `clearLogs`
does not leave the log list empty: even clearing an already-empty log
list leaves exactly one entry, the "System logs cleared" notification
the function itself appends. -/
theorem c2_clear_then_list_cex :
    clearLogs 0 [] [] ≠ [] ∧ (clearLogs 0 [] []).length = 1 := by
  decide

/-- C2 (amended): `clearLogs` deletes every prior entry and afterwards
the log list holds exactly one entry, the "System logs cleared"
notification; a prior entry survives only if it equals that
notification. -/
theorem c2_clear_then_list_amended (now : Nat) (ts : JStr) (prev : List SystemLog) :
    (clearLogs now ts prev).length = 1 ∧
    (∀ e ∈ clearLogs now ts prev, e.message = "System logs cleared".toList) ∧
    (∀ e ∈ prev, e ∈ clearLogs now ts prev → e = clearNotification now ts) := by
  refine ⟨rfl, ?_, ?_⟩
  · intro e he
    simp [clearLogs] at he
    rw [he]
    rfl
  · intro e _ he
    simp [clearLogs] at he
    exact he

/-- C2 (witness): the amended theorem applied at a concrete clear,
discharging the membership hypothesis at the notification entry. -/
theorem c2_clear_then_list_witness :
    (clearLogs 5 [] []).length = 1 ∧
    (clearNotification 5 []).message = "System logs cleared".toList :=
  ⟨(c2_clear_then_list_amended 5 [] []).1,
   (c2_clear_then_list_amended 5 [] []).2.1 (clearNotification 5 []) (by decide)⟩

/-- C3 (counterexample): the claim as stated is false on the code's
store. `bigPhotoPayload` has a valid age (30) and passes the sex and
status CHECK constraints, yet the store rejects it: its embedded image
exceeds the `photo_data VARCHAR(10)` column width of the final DDL, so
acceptance is not decided by the age alone. -/
theorem c3_age_acceptance_cex :
    (0 < bigPhotoPayload.age ∧ bigPhotoPayload.age < 120) ∧
    sexCheck bigPhotoPayload.sex = true ∧
    statusCheck bigPhotoPayload.status = true ∧
    insertAccepted sampleStore bigPhotoPayload = false := by
  decide

/-- C3 (amended): for a payload whose non-age columns satisfy the
store's constraints (sex/status CHECK constraints and the VARCHAR
column widths), the soldiers store (final DDL, `age > 0 AND age < 120`)
accepts an insert exactly when `0 < age < 120`; it rejects any payload
when `age <= 0` or `age >= 120`, and also rejects, regardless of age,
any payload violating a column width (such as an embedded image longer
than 10 characters). -/
theorem c3_age_acceptance_amended (store : SoldiersStore) (p : SoldierPayload) :
    (sexCheck p.sex = true → statusCheck p.status = true → widthChecks p = true →
      (insertAccepted store p = true ↔ (0 < p.age ∧ p.age < 120))) ∧
    ((p.age ≤ 0 ∨ 120 ≤ p.age) → insertAccepted store p = false) ∧
    (widthChecks p = false → insertAccepted store p = false) := by
  have hacc : insertAccepted store p =
      (rowChecks p.sex p.age p.status && widthChecks p) := by
    unfold insertAccepted supabaseInsert
    by_cases hc : (rowChecks p.sex p.age p.status && widthChecks p) = true
    · rw [if_pos hc, hc]
    · rw [if_neg hc]
      simp only [Bool.not_eq_true] at hc
      rw [hc]
  refine ⟨?_, ?_, ?_⟩
  · intro hsex hstatus hw
    rw [hacc]
    unfold rowChecks ageCheck
    rw [hsex, hstatus, hw]
    simp
  · intro hout
    have hage : ageCheck p.age = false := by
      unfold ageCheck
      simp
      omega
    rw [hacc]
    unfold rowChecks
    rw [hage]
    simp
  · intro hw
    rw [hacc, hw]
    simp

/-- C3 (witness): the amended theorem applied concretely: a 30-year-old
in-width payload is accepted, the same payload at age 150 is rejected,
and the valid-age payload with the 38-character image is rejected. -/
theorem c3_age_acceptance_witness :
    insertAccepted sampleStore janePayload = true ∧
    insertAccepted sampleStore { janePayload with age := 150 } = false ∧
    insertAccepted sampleStore bigPhotoPayload = false := by
  refine ⟨?_, ?_, ?_⟩
  · exact ((c3_age_acceptance_amended sampleStore janePayload).1 (by decide) (by decide)
      (by decide)).mpr (by decide)
  · exact (c3_age_acceptance_amended sampleStore { janePayload with age := 150 }).2.1
      (Or.inr (by decide))
  · exact (c3_age_acceptance_amended sampleStore bigPhotoPayload).2.2 (by decide)

/-- C4 (counterexample): the claim is false on the code. With one
candidate carrying an embedded image, a failing AI call makes the
comparison report no match (`none`), so its result is not drawn from the
candidate set and no random candidate is selected. -/
theorem c4_ai_failure_cex :
    ([imgSoldier].filter hasEmbeddedImage ≠ []) ∧
    handleCompareFaces GeminiOutcome.netFailure 0 [imgSoldier] = none := by
  decide

/-- C4 (amended): `compareFacesWithGemini` absorbs every failure and
returns a successful value (never a hard failure), and on a network
failure or an unparseable response `handleCompareFaces` reports no match
rather than a random candidate; the random-pick branch is dead code. -/
theorem c4_ai_failure_amended :
    (∀ (o : GeminiOutcome) (imgs : List Soldier),
      ∃ v, compareFacesWithGemini o imgs = Except.ok v) ∧
    (∀ (rnd : Nat) (soldiers : List Soldier),
      handleCompareFaces GeminiOutcome.netFailure rnd soldiers = none) ∧
    (∀ (rnd : Nat) (soldiers : List Soldier) (t : JStr),
      jsTrim t ≠ [] → jsParseInt (jsTrim t) = none →
      handleCompareFaces (GeminiOutcome.response (some t)) rnd soldiers = none) := by
  refine ⟨?_, ?_, ?_⟩
  · intro o imgs
    cases o with
    | netFailure => exact ⟨none, rfl⟩
    | response t =>
      unfold compareFacesWithGemini
      dsimp only
      split
      · exact ⟨none, rfl⟩
      · split
        · exact ⟨_, rfl⟩
        · exact ⟨none, rfl⟩
  · intro rnd soldiers
    unfold handleCompareFaces
    dsimp only
    split
    · rfl
    · rfl
  · intro rnd soldiers t ht hp
    have hcmp : compareFacesWithGemini (GeminiOutcome.response (some t))
        (soldiers.filter hasEmbeddedImage) = Except.ok none := by
      unfold compareFacesWithGemini
      dsimp only
      rw [if_neg ht, hp]
    unfold handleCompareFaces
    dsimp only
    split
    · rfl
    · rw [hcmp]

/-- C4 (witness): the amended theorem applied at a network failure and at
an unparseable response over a concrete candidate list. -/
theorem c4_ai_failure_witness :
    (∃ v, compareFacesWithGemini GeminiOutcome.netFailure [] = Except.ok v) ∧
    handleCompareFaces GeminiOutcome.netFailure 0 [] = none ∧
    handleCompareFaces (GeminiOutcome.response (some ("abc".toList))) 0 [imgSoldier] = none :=
  ⟨c4_ai_failure_amended.1 GeminiOutcome.netFailure [],
   c4_ai_failure_amended.2.1 0 [],
   c4_ai_failure_amended.2.2 0 [imgSoldier] ("abc".toList) (by decide) (by decide)⟩

/-- C5: a create or update whose supplied encoded image string starts
with `data:image` and exceeds 1 MiB is rejected by the size check before
any store call (`addSoldier` / `updateSoldier` end in `rejectedSize`, or
`noop` when the field guard already failed) and the roster state is
unchanged. -/
theorem c5_oversized_image_rejected (form : NewSoldierForm) (img : JStr)
    (store : SoldiersStore) (editing : Soldier)
    (hpre : dataImageHeader.isPrefixOf img = true)
    (hsize : 1024 * 1024 < img.length) :
    (addSoldier form (some img) store = AddResult.rejectedSize ∨
      addSoldier form (some img) store = AddResult.noop) ∧
    rosterAfterAdd store (addSoldier form (some img) store) = store ∧
    (updateSoldier editing form (some img) store = UpdateResult.rejectedSize ∨
      updateSoldier editing form (some img) store = UpdateResult.noop) ∧
    rosterAfterUpdate store (updateSoldier editing form (some img) store) = store := by
  have hprep : preparePhotoData form.name (some img) = none := by
    unfold preparePhotoData
    dsimp only
    rw [if_pos hpre, if_pos hsize]
  have hadd : addSoldier form (some img) store = AddResult.rejectedSize ∨
      addSoldier form (some img) store = AddResult.noop := by
    by_cases hguard : (form.name != ([] : JStr) && form.position != ([] : JStr) &&
        form.age != ([] : JStr)) = true
    · left
      unfold addSoldier
      rw [if_pos hguard, hprep]
    · right
      unfold addSoldier
      rw [if_neg hguard]
  have hupd : updateSoldier editing form (some img) store = UpdateResult.rejectedSize ∨
      updateSoldier editing form (some img) store = UpdateResult.noop := by
    by_cases hguard : (form.name != ([] : JStr) && form.position != ([] : JStr) &&
        form.age != ([] : JStr)) = true
    · left
      unfold updateSoldier
      rw [if_pos hguard, hprep]
    · right
      unfold updateSoldier
      rw [if_neg hguard]
  refine ⟨hadd, ?_, hupd, ?_⟩
  · rcases hadd with h | h <;> rw [h] <;> rfl
  · rcases hupd with h | h <;> rw [h] <;> rfl

/-- C5 (witness): the theorem applied to a concrete image string one MiB
plus ten characters long. -/
theorem c5_oversized_image_rejected_witness :
    (addSoldier johnForm (some bigImg) sampleStore = AddResult.rejectedSize ∨
      addSoldier johnForm (some bigImg) sampleStore = AddResult.noop) ∧
    rosterAfterAdd sampleStore (addSoldier johnForm (some bigImg) sampleStore) = sampleStore ∧
    (updateSoldier rowOne johnForm (some bigImg) sampleStore = UpdateResult.rejectedSize ∨
      updateSoldier rowOne johnForm (some bigImg) sampleStore = UpdateResult.noop) ∧
    rosterAfterUpdate sampleStore (updateSoldier rowOne johnForm (some bigImg) sampleStore) =
      sampleStore := by
  have hlen : 1024 * 1024 < bigImg.length := by
    have h1 : bigImg.length = ("data:image".toList).length + 1024 * 1024 := by
      rw [bigImg, List.length_append, List.length_replicate]
    have h2 : ("data:image".toList).length = 10 := by decide
    omega
  exact c5_oversized_image_rejected johnForm bigImg sampleStore rowOne (by decide) hlen

/-- C6: a successful store update of an existing row (payload columns
plus the `updated_at` trigger) preserves the row's `id` and
`created_at` and strictly advances its `updated_at`, given that stored
timestamps precede the current clock. -/
theorem c6_update_frame (s : SoldiersStore) (i : Nat) (p : SoldierPayload)
    (s2 : SoldiersStore) (rs : List Soldier) (r : Soldier)
    (hwf : s.wf = true) (hok : supabaseUpdate s i p = Except.ok (s2, rs))
    (hr : r ∈ s.rows) (hid : r.id = i) :
    ∃ r2 ∈ s2.rows, r2.id = r.id ∧ r2.created_at = r.created_at ∧
      r.updated_at < r2.updated_at := by
  unfold supabaseUpdate at hok
  split at hok
  case isFalse => exact absurd hok (by simp)
  case isTrue =>
    dsimp only at hok
    injection hok with hok2
    injection hok2 with hfst hsnd
    refine ⟨applyPayload p s.clock r, ?_, rfl, rfl, ?_⟩
    · rw [← hfst]
      dsimp only
      exact List.mem_map.mpr ⟨r, hr, by rw [if_pos hid]⟩
    · show r.updated_at < s.clock
      have hall := List.all_eq_true.mp hwf r hr
      simp only [Bool.and_eq_true, decide_eq_true_eq] at hall
      exact hall.2

/-- C6 (witness): the theorem applied to a concrete successful update of
`rowOne` in `twoRowStore`. -/
theorem c6_update_frame_witness :
    ∃ r2 ∈ storeAfterJane.rows, r2.id = rowOne.id ∧ r2.created_at = rowOne.created_at ∧
      rowOne.updated_at < r2.updated_at :=
  c6_update_frame twoRowStore 1 janePayload storeAfterJane [updatedRowOne] rowOne
    (by decide) rfl (by decide) rfl

/-- C7: after a successful `delete(id)`, the list returned by a
successful `list()` never includes a record with that id. -/
theorem c7_delete_then_list (s : SoldiersStore) (i : Nat) (l : List Soldier)
    (h : loadSoldiers true (supabaseDelete s i) = Except.ok l) :
    ∀ r ∈ l, r.id ≠ i := by
  unfold loadSoldiers at h
  rw [if_pos rfl] at h
  injection h with h2
  intro r hr
  rw [← h2] at hr
  have hmem : r ∈ (supabaseDelete s i).rows :=
    ((List.perm_insertionSort createdDesc _).mem_iff).mp hr
  unfold supabaseDelete at hmem
  dsimp only at hmem
  have hkeep := (List.mem_filter.mp hmem).2
  simpa using hkeep

/-- C7 (witness): deleting id 1 from the concrete two-row store and
listing leaves only `rowTwo`, whose id is not 1. -/
theorem c7_delete_then_list_witness : rowTwo.id ≠ 1 :=
  c7_delete_then_list twoRowStore 1 [rowTwo] rfl rowTwo (by decide)

/-- C8: when the connection is up, `list()` returns all soldier records
(a permutation of the stored rows, hence no pagination) sorted by
creation time descending; when the connection fails, it signals a store
error to the caller. -/
theorem c8_list_ordering (s : SoldiersStore) (connected : Bool) :
    (connected = true → ∃ l, loadSoldiers connected s = Except.ok l ∧
      l.Perm s.rows ∧ l.Sorted createdDesc) ∧
    (connected = false → ∃ e, loadSoldiers connected s = Except.error e) := by
  constructor
  · intro hc
    subst hc
    exact ⟨List.insertionSort createdDesc s.rows, rfl,
      List.perm_insertionSort createdDesc s.rows,
      List.sorted_insertionSort createdDesc s.rows⟩
  · intro hc
    subst hc
    exact ⟨"connection failed".toList, rfl⟩

/-- C8 (witness): the theorem applied to the concrete two-row store with
the connection up and down. -/
theorem c8_list_ordering_witness :
    (∃ l, loadSoldiers true twoRowStore = Except.ok l ∧
      l.Perm twoRowStore.rows ∧ l.Sorted createdDesc) ∧
    (∃ e, loadSoldiers false twoRowStore = Except.error e) :=
  ⟨(c8_list_ordering twoRowStore true).1 rfl,
   (c8_list_ordering twoRowStore false).2 rfl⟩

/-- C9 (counterexample): the claim is false on the code. Creating a
soldier whose name is the single character "a" succeeds and stores
`photo_data` "A", which is neither a two-character uppercase fallback
nor an embedded image string. -/
theorem c9_photo_invariant_cex :
    (addResultPhoto (addSoldier aForm none sampleStore)).map photoClaimCheck = some false := by
  decide

/-- C9 (amended): after every successful create or update, `photo_data`
is non-null and non-empty, and is exactly one of the uppercased
first-two-characters fallback (two characters whenever the name has at
least two) or an embedded image string starting with `data:image`. -/
theorem c9_photo_invariant_amended :
    (∀ (form : NewSoldierForm) (img : Option JStr) (store s : SoldiersStore) (r : Soldier),
      addSoldier form img store = AddResult.inserted s r →
      ∃ p, r.photo_data = some p ∧ p ≠ [] ∧
        ((p = initialsFallback form.name ∧ p.length = min 2 form.name.length) ∨
          dataImageHeader.isPrefixOf p = true)) ∧
    (∀ (editing : Soldier) (form : NewSoldierForm) (img : Option JStr)
        (store s : SoldiersStore) (rs : List Soldier),
      updateSoldier editing form img store = UpdateResult.updated s rs →
      ∀ r ∈ rs, ∃ p, r.photo_data = some p ∧ p ≠ [] ∧
        ((p = initialsFallback form.name ∧ p.length = min 2 form.name.length) ∨
          dataImageHeader.isPrefixOf p = true)) := by
  constructor
  · intro form img store s r h
    obtain ⟨hname, p, hp, hphoto⟩ := addSoldier_inserted_spec form img store s r h
    refine ⟨p, hphoto, ?_, ?_⟩
    · rcases preparePhotoData_cases form.name img p hp with hfall | hpref
      · rw [hfall]
        exact initialsFallback_ne_nil form.name hname
      · exact header_prefix_ne_nil p hpref
    · rcases preparePhotoData_cases form.name img p hp with hfall | hpref
      · exact Or.inl ⟨hfall, by rw [hfall]; exact initialsFallback_length form.name⟩
      · exact Or.inr hpref
  · intro editing form img store s rs h r hr
    obtain ⟨hname, p, hp, hall⟩ := updateSoldier_updated_spec editing form img store s rs h
    refine ⟨p, hall r hr, ?_, ?_⟩
    · rcases preparePhotoData_cases form.name img p hp with hfall | hpref
      · rw [hfall]
        exact initialsFallback_ne_nil form.name hname
      · exact header_prefix_ne_nil p hpref
    · rcases preparePhotoData_cases form.name img p hp with hfall | hpref
      · exact Or.inl ⟨hfall, by rw [hfall]; exact initialsFallback_length form.name⟩
      · exact Or.inr hpref

/-- C9 (witness): the amended invariant holds for the concrete create of
"John Doe" on the empty store. -/
theorem c9_photo_invariant_witness :
    ∃ p, johnRow.photo_data = some p ∧ p ≠ [] ∧
      ((p = initialsFallback johnForm.name ∧ p.length = min 2 johnForm.name.length) ∨
        dataImageHeader.isPrefixOf p = true) :=
  c9_photo_invariant_amended.1 johnForm none sampleStore storeAfterJohn johnRow (by decide)

/-- C10: every write to the in-memory system-log mirror prepends the new
entry to the first 99 previous entries, so the resulting list always has
at most 100 entries (the length-at-most-100 invariant is forced, hence
preserved, by every log write). -/
theorem c10_log_mirror_cap (newLog : SystemLog) (prev : List SystemLog) :
    (appendSystemLog newLog prev).length ≤ 100 ∧
    (appendSystemLog newLog prev).head? = some newLog := by
  constructor
  · have : (prev.take 99).length ≤ 99 := by
      rw [List.length_take]
      omega
    simp only [appendSystemLog, List.length_cons]
    omega
  · rfl

end Sentinel
